import Mathlib

/-!
Shallow embedding of the time_parser module: three regex-driven matchers
(period, date range, time range) over rule strings, composed by a
short-circuiting boolean AND in IsAvailable.  Rule strings are modelled as
lists of characters; instants are modelled as a DateTime record carrying the
seven fields of a Python datetime.  Fallible matchers return Except String
Bool, the error carrying the same message text as the ParseError in the
source.  The regex searches are hand-compiled backtracking matchers for the
three concrete patterns in the source (for these patterns the greedy
maximal-munch strategy coincides with the backtracking engine, because every
repeated class is disjoint from the character that must follow it).
-/

namespace TimeParser

/-- An instant: the seven components of a Python datetime, compared
lexicographically, as Python compares datetime values. -/
structure DateTime where
  year : Nat
  month : Nat
  day : Nat
  hour : Nat
  minute : Nat
  second : Nat
  microsecond : Nat
deriving DecidableEq, Repr

/-- Lexicographic comparison of equal-length lists of naturals, the order
Python uses on datetime and date values viewed as tuples. -/
def lexLe : List Nat → List Nat → Bool
  | [], _ => true
  | _ :: _, [] => false
  | a :: as, b :: bs =>
    if a < b then true else if b < a then false else lexLe as bs

def DateTime.fields (d : DateTime) : List Nat :=
  [d.year, d.month, d.day, d.hour, d.minute, d.second, d.microsecond]

/-- Full-precision comparison a less-or-equal b on datetimes. -/
def dtLe (a b : DateTime) : Bool := lexLe a.fields b.fields

/-- The date() projection of a datetime: its calendar-date triple. -/
def dateTriple (d : DateTime) : List Nat := [d.year, d.month, d.day]

/-- Date-only comparison a.date() less-or-equal b.date(). -/
def dateLe (a b : DateTime) : Bool := lexLe (dateTriple a) (dateTriple b)

/-- Proleptic Gregorian leap-year test. -/
def leapYear (y : Nat) : Bool :=
  y % 4 = 0 && (y % 100 ≠ 0 || y % 400 = 0)

/-- Length of a month, as in the calendar used by Python datetime. -/
def daysInMonth (y m : Nat) : Nat :=
  if m = 2 then (if leapYear y then 29 else 28)
  else if m = 4 ∨ m = 6 ∨ m = 9 ∨ m = 11 then 30
  else 31

/-- Days in all years before year y (y counted from 1). -/
def daysBeforeYear (y : Nat) : Nat :=
  365 * (y - 1) + (y - 1) / 4 - (y - 1) / 100 + (y - 1) / 400

/-- Days in year y before month m. -/
def daysBeforeMonth (y m : Nat) : Nat :=
  (match m with
   | 1 => 0 | 2 => 31 | 3 => 59 | 4 => 90 | 5 => 120 | 6 => 151
   | 7 => 181 | 8 => 212 | 9 => 243 | 10 => 273 | 11 => 304 | _ => 334)
  + (if 2 < m ∧ leapYear y then 1 else 0)

/-- Python date.toordinal: day number with 0001-01-01 as day 1. -/
def toordinal (y m d : Nat) : Nat := daysBeforeYear y + daysBeforeMonth y m + d

/-- Python datetime.weekday(): Monday is 0 through Sunday 6.  Ordinal day 1
is a Monday, so the shift by 6 aligns the modulus. -/
def weekday (dt : DateTime) : Nat := (toordinal dt.year dt.month dt.day + 6) % 7

/-- The instant is a well-formed Python datetime (field ranges the datetime
constructor enforces). -/
def Valid (d : DateTime) : Prop :=
  1 ≤ d.year ∧ d.year ≤ 9999 ∧ 1 ≤ d.month ∧ d.month ≤ 12 ∧
  1 ≤ d.day ∧ d.day ≤ daysInMonth d.year d.month ∧
  d.hour ≤ 23 ∧ d.minute ≤ 59 ∧ d.second ≤ 59 ∧ d.microsecond ≤ 999999

instance (d : DateTime) : Decidable (Valid d) := by
  unfold Valid; infer_instance

/-- strftime with directive percent-a: the English weekday abbreviation,
indexed by weekday(). -/
def dayAbbrev (w : Nat) : List Char :=
  match w with
  | 0 => "Mon".toList | 1 => "Tue".toList | 2 => "Wed".toList
  | 3 => "Thu".toList | 4 => "Fri".toList | 5 => "Sat".toList
  | _ => "Sun".toList

/-- ASCII str.lower applied characterwise. -/
def lowerList (l : List Char) : List Char := l.map Char.toLower

/-- Decimal digit character for n at most 9. -/
def digitChar (n : Nat) : Char := Char.ofNat (48 + n)

/-- Value of a string of decimal digits. -/
def digitsToNat (l : List Char) : Nat :=
  l.foldl (fun a c => 10 * a + (c.toNat - 48)) 0

/-- Take up to k leading decimal digits, returning them and the rest: the
maximal-munch reading of a bounded digit repetition. -/
def takeDigits : Nat → List Char → List Char × List Char
  | 0, s => ([], s)
  | _ + 1, [] => ([], [])
  | k + 1, c :: rest =>
    if c.isDigit then
      let (r, t) := takeDigits k rest
      (c :: r, t)
    else ([], c :: rest)

/-- strftime percent-d and percent-m: zero-padded two-digit field. -/
def pad2 (n : Nat) : List Char := [digitChar (n / 10), digitChar (n % 10)]

/-- strftime percent-Y on a datetime year: zero-padded four-digit field. -/
def pad4 (n : Nat) : List Char :=
  [digitChar (n / 1000), digitChar (n / 100 % 10),
   digitChar (n / 10 % 10), digitChar (n % 10)]

/-- date_time.strftime of the format day/month/year followed by a space, as
built at line 129 of the source. -/
def strftimeDate (dt : DateTime) : List Char :=
  pad2 dt.day ++ '/' :: pad2 dt.month ++ '/' :: pad4 dt.year ++ [' ']

/-- The day/month/year prefix of a strptime input for the directives
percent-d slash percent-m slash percent-Y: day and month are one or two
digits whose value fits the field, the year exactly four digits.  Returns
the three values and the unconsumed rest. -/
def parseDatePart (s : List Char) : Option ((Nat × Nat × Nat) × List Char) :=
  let (drun, r1) := takeDigits 2 s
  if drun = [] then none else
  let dv := digitsToNat drun
  if dv < 1 ∨ 31 < dv then none else
  match r1 with
  | '/' :: r2 =>
    let (mrun, r3) := takeDigits 2 r2
    if mrun = [] then none else
    let mv := digitsToNat mrun
    if mv < 1 ∨ 12 < mv then none else
    (match r3 with
     | '/' :: r4 =>
       let (yrun, r5) := takeDigits 4 r4
       if yrun.length ≠ 4 then none else
       some ((dv, mv, digitsToNat yrun), r5)
     | _ => none)
  | _ => none

/-- The tail of a strptime input for the directives percent-I colon
percent-M space percent-p: a 12-hour-clock hour, minutes, and a
case-insensitive AM or PM marker, consuming the whole rest.  Returns the
24-hour hour and the minute. -/
def parseTimePart (s : List Char) : Option (Nat × Nat) :=
  let (hrun, r1) := takeDigits 2 s
  if hrun = [] then none else
  let hv := digitsToNat hrun
  if hv < 1 ∨ 12 < hv then none else
  match r1 with
  | ':' :: r2 =>
    let (mrun, r3) := takeDigits 2 r2
    if mrun = [] then none else
    let mv := digitsToNat mrun
    if 59 < mv then none else
    (match r3 with
     | [' ', c1, c2] =>
       if c1.toLower = 'a' ∧ c2.toLower = 'm' then
         some ((if hv = 12 then 0 else hv), mv)
       else if c1.toLower = 'p' ∧ c2.toLower = 'm' then
         some ((if hv = 12 then 12 else hv + 12), mv)
       else none
     | _ => none)
  | _ => none

/-- datetime.strptime with format day/month/year: the whole string must be
consumed, and the values must form a constructible date.  The result is a
datetime at midnight of that date. -/
def strptimeDate (s : List Char) : Option DateTime :=
  match parseDatePart s with
  | some ((d, m, y), []) =>
    if y < 1 ∨ daysInMonth y m < d then none
    else some ⟨y, m, d, 0, 0, 0, 0⟩
  | _ => none

/-- datetime.strptime with format day/month/year space hour:minute marker:
the whole string must be consumed and all values must be constructible. -/
def strptimeDateTime (s : List Char) : Option DateTime :=
  match parseDatePart s with
  | some ((d, m, y), ' ' :: rest) =>
    match parseTimePart rest with
    | some (h, mi) =>
      if y < 1 ∨ daysInMonth y m < d then none
      else some ⟨y, m, d, h, mi, 0, 0⟩
    | none => none
  | _ => none

/-- The character class of the period pattern: every character that occurs
between the brackets in the source regex (the alternation bars are
characters of the class). -/
def periodClass (c : Char) : Bool :=
  "mon|tue|wed|thu|fri|sat|sun|day|weekday|weekend".toList.contains c

/-- re.search driver: try the pattern at each start position from the left
and return the first success. -/
def searchFrom {α : Type} (f : List Char → Option α) : List Char → Option α
  | [] => f []
  | c :: rest =>
    match f (c :: rest) with
    | some r => some r
    | none => searchFrom f rest

/-- The period pattern anchored at the current position: the literal
followed by one or more class characters, captured greedily. -/
def matchPeriodAt (s : List Char) : Option (List Char) :=
  match s with
  | 'e' :: 'v' :: 'e' :: 'r' :: 'y' :: ' ' :: rest =>
    let run := rest.takeWhile periodClass
    if run = [] then none else some run
  | _ => none

/-- re.search of the period regex: the captured token, if any. -/
def periodSearch (s : List Char) : Option (List Char) := searchFrom matchPeriodAt s

/-- One date group of the date regex: one or two digits, slash, one or two
digits, slash, one to four digits.  Returns the captured text and the
rest. -/
def matchDateGroup (s : List Char) : Option (List Char × List Char) :=
  let (d1, r1) := takeDigits 2 s
  if d1 = [] then none else
  match r1 with
  | '/' :: r2 =>
    let (d2, r3) := takeDigits 2 r2
    if d2 = [] then none else
    (match r3 with
     | '/' :: r4 =>
       let (d3, r5) := takeDigits 4 r4
       if d3 = [] then none else
       some (d1 ++ '/' :: d2 ++ '/' :: d3, r5)
     | _ => none)
  | _ => none

/-- The date pattern anchored at the current position: the literal, a first
date group, an optional dash, and an optional second date group. -/
def matchDateAt (s : List Char) : Option (List Char × Option (List Char)) :=
  match s with
  | 'd' :: 'a' :: 't' :: 'e' :: ':' :: ' ' :: rest =>
    match matchDateGroup rest with
    | none => none
    | some (g1, r1) =>
      let r2 := match r1 with
                | '-' :: t => t
                | _ => r1
      match matchDateGroup r2 with
      | some (g2, _) => some (g1, some g2)
      | none => some (g1, none)
  | _ => none

/-- re.search of the date regex: the two captured groups, if any. -/
def dateSearch (s : List Char) : Option (List Char × Option (List Char)) :=
  searchFrom matchDateAt s

/-- One time group of the time regex: one or two digits, colon, one or two
digits, space, one character of the class containing A, the bar and P, then
the letter M. -/
def matchTimeGroup (s : List Char) : Option (List Char × List Char) :=
  let (d1, r1) := takeDigits 2 s
  if d1 = [] then none else
  match r1 with
  | ':' :: r2 =>
    let (d2, r3) := takeDigits 2 r2
    if d2 = [] then none else
    (match r3 with
     | ' ' :: c :: 'M' :: r4 =>
       if c = 'A' ∨ c = '|' ∨ c = 'P' then
         some (d1 ++ ':' :: d2 ++ ' ' :: [c, 'M'], r4)
       else none
     | _ => none)
  | _ => none

/-- The time pattern anchored at the current position: the literal, a first
time group, an optional dash, and an optional second time group. -/
def matchTimeAt (s : List Char) : Option (List Char × Option (List Char)) :=
  match s with
  | 't' :: 'i' :: 'm' :: 'e' :: ':' :: ' ' :: rest =>
    match matchTimeGroup rest with
    | none => none
    | some (g1, r1) =>
      let r2 := match r1 with
                | '-' :: t => t
                | _ => r1
      match matchTimeGroup r2 with
      | some (g2, _) => some (g1, some g2)
      | none => some (g1, none)
  | _ => none

/-- re.search of the time regex: the two captured groups, if any. -/
def timeSearch (s : List Char) : Option (List Char × Option (List Char)) :=
  searchFrom matchTimeAt s

/-- The members of the weekend-day set in the source. -/
def weekendDays : List Nat := [5, 6]

/-- The ParseError message of the date matcher. -/
def dateMsg : String := "Unable to parse date range. Please user proper format."

/-- The ParseError message of the time matcher. -/
def timeMsg : String := "Unable to parse time range. Please user proper format."

/-- Lines 44 to 70 of the source: search for the period clause; on a match,
lowercase the token and dispatch on it, falling through to a comparison with
the lowercased weekday abbreviation; with no match return true. -/
def ParsePeriod (dt : DateTime) (s : List Char) : Bool :=
  match periodSearch s with
  | some g =>
    let period := lowerList g
    if period = "day".toList then true
    else if period = "weekend".toList then weekendDays.contains (weekday dt)
    else if period = "weekday".toList then ! weekendDays.contains (weekday dt)
    else decide (lowerList (dayAbbrev (weekday dt)) = period)
  | none => true

/-- Lines 73 to 104 of the source: search for the date clause; parse the end
date first when present and fold its check in, then parse the start date and
fold its checks in; a failed parse is the ParseError. -/
def ParseDate (dt : DateTime) (s : List Char) : Except String Bool :=
  match dateSearch s with
  | none => .ok true
  | some (g1, g2o) =>
    match g2o with
    | some g2 =>
      match strptimeDate g2 with
      | none => .error dateMsg
      | some endD =>
        let a1 := dateLe dt endD
        match strptimeDate g1 with
        | none => .error dateMsg
        | some startD => .ok (a1 && dtLe startD dt)
    | none =>
      match strptimeDate g1 with
      | none => .error dateMsg
      | some startD => .ok (dtLe startD dt && decide (dateTriple startD = dateTriple dt))

/-- Lines 107 to 141 of the source: search for the time clause; glue each
captured group to the strftime rendering of the instant date and strptime
the result; parse the end time first when present; a failed parse is the
ParseError. -/
def ParseTime (dt : DateTime) (s : List Char) : Except String Bool :=
  match timeSearch s with
  | none => .ok true
  | some (g1, g2o) =>
    let dstr := strftimeDate dt
    match g2o with
    | some g2 =>
      match strptimeDateTime (dstr ++ g2) with
      | none => .error timeMsg
      | some endT =>
        let a1 := dtLe dt endT
        match strptimeDateTime (dstr ++ g1) with
        | none => .error timeMsg
        | some startT => .ok (a1 && dtLe startT dt)
    | none =>
      match strptimeDateTime (dstr ++ g1) with
      | none => .error timeMsg
      | some startT => .ok (decide (startT = dt) && dtLe startT dt)

/-- Lines 144 to 162 of the source: the chained boolean AND of the three
matchers, short-circuiting left to right as the Python and operator does. -/
def IsAvailable (dt : DateTime) (s : List Char) : Except String Bool :=
  if ParsePeriod dt s then
    match ParseDate dt s with
    | .error e => .error e
    | .ok d => if d then ParseTime dt s else .ok false
  else .ok false

/-- Whether a matcher outcome is the raised ParseError. -/
def isErr : Except String Bool → Bool
  | .error _ => true
  | .ok _ => false

/-- Whether a matcher outcome is the value true. -/
def isOkTrue : Except String Bool → Bool
  | .ok true => true
  | _ => false

/-- The rule string holds a date clause whose textual shape the date regex
accepts but at least one of whose captured values fails strptime
validation. -/
def dateClauseInvalid (s : List Char) : Bool :=
  match dateSearch s with
  | none => false
  | some (g1, g2o) =>
    ! ((strptimeDate g1).isSome &&
       (match g2o with
        | none => true
        | some g2 => (strptimeDate g2).isSome))

/-- The rule string holds a time clause whose textual shape the time regex
accepts but at least one of whose captured values fails strptime
validation. -/
def timeClauseInvalid (s : List Char) : Bool :=
  match timeSearch s with
  | none => false
  | some (g1, g2o) =>
    ! ((parseTimePart g1).isSome &&
       (match g2o with
        | none => true
        | some g2 => (parseTimePart g2).isSome))

/-- The tokens the period matcher gives a meaning to: the three literal
words and the seven weekday abbreviations strftime can produce. -/
def recognizedTokens : List (List Char) :=
  ["mon".toList, "tue".toList, "wed".toList, "thu".toList, "fri".toList,
   "sat".toList, "sun".toList, "day".toList, "weekday".toList,
   "weekend".toList]

/-- The instant of the reference tests: Friday 2014-01-10 at 15:00. -/
def fri2014 : DateTime := ⟨2014, 1, 10, 15, 0, 0, 0⟩

/-- A Monday instant: 2014-01-06 at midnight. -/
def monday2014 : DateTime := ⟨2014, 1, 6, 0, 0, 0, 0⟩

lemma lexLe_refl : ∀ l : List Nat, lexLe l l = true
  | [] => rfl
  | a :: as => by simp [lexLe, lexLe_refl as]

lemma dtLe_refl (a : DateTime) : dtLe a a = true := lexLe_refl _

lemma digitChar_isDigit {k : Nat} (h : k ≤ 9) : (digitChar k).isDigit = true := by
  interval_cases k <;> decide

lemma digitChar_toNat {k : Nat} (h : k ≤ 9) : (digitChar k).toNat = 48 + k := by
  interval_cases k <;> decide

lemma digitsToNat_two {n : Nat} (h : n ≤ 99) :
    digitsToNat [digitChar (n / 10), digitChar (n % 10)] = n := by
  simp [digitsToNat, digitChar_toNat (show n / 10 ≤ 9 by omega),
    digitChar_toNat (show n % 10 ≤ 9 by omega)]
  omega

lemma digitsToNat_four {n : Nat} (h : n ≤ 9999) :
    digitsToNat [digitChar (n / 1000), digitChar (n / 100 % 10),
      digitChar (n / 10 % 10), digitChar (n % 10)] = n := by
  simp [digitsToNat, digitChar_toNat (show n / 1000 ≤ 9 by omega),
    digitChar_toNat (show n / 100 % 10 ≤ 9 by omega),
    digitChar_toNat (show n / 10 % 10 ≤ 9 by omega),
    digitChar_toNat (show n % 10 ≤ 9 by omega)]
  omega

lemma daysInMonth_le_31 (y m : Nat) : daysInMonth y m ≤ 31 := by
  unfold daysInMonth
  split
  · split <;> omega
  · split <;> omega

/-- Every datetime produced by strptime of a date-only format is at
midnight. -/
lemma strptimeDate_fields {l : List Char} {x : DateTime}
    (h : strptimeDate l = some x) :
    x.hour = 0 ∧ x.minute = 0 ∧ x.second = 0 ∧ x.microsecond = 0 := by
  unfold strptimeDate at h
  split at h
  · split at h
    · exact absurd h (by simp)
    · cases h; exact ⟨rfl, rfl, rfl, rfl⟩
  · exact absurd h (by simp)

/-- A midnight datetime is at most any datetime of the same calendar
date. -/
lemma dtLe_midnight {a b : DateTime} (hh : a.hour = 0) (hm : a.minute = 0)
    (hs : a.second = 0) (hu : a.microsecond = 0)
    (hd : dateTriple a = dateTriple b) : dtLe a b = true := by
  obtain ⟨y1, m1, d1, u1, u2, u3, u4⟩ := a
  obtain ⟨y2, m2, d2, v1, v2, v3, v4⟩ := b
  simp_all [dateTriple]
  obtain ⟨rfl, rfl, rfl⟩ := hd
  simp [dtLe, DateTime.fields, lexLe]

lemma takeDigits_cons_two {c1 c2 : Char} (h1 : c1.isDigit = true)
    (h2 : c2.isDigit = true) (r : List Char) :
    takeDigits 2 (c1 :: c2 :: r) = ([c1, c2], r) := by
  simp [takeDigits, h1, h2]

lemma takeDigits_cons_four {c1 c2 c3 c4 : Char} (h1 : c1.isDigit = true)
    (h2 : c2.isDigit = true) (h3 : c3.isDigit = true) (h4 : c4.isDigit = true)
    (r : List Char) :
    takeDigits 4 (c1 :: c2 :: c3 :: c4 :: r) = ([c1, c2, c3, c4], r) := by
  simp [takeDigits, h1, h2, h3, h4]

/-- strptime applied to the strftime rendering of a valid instant date glued
to a capture: the date part reparses to the instant date and the outcome is
decided by the time part of the capture alone. -/
lemma parseDatePart_strftime (dt : DateTime) (hv : Valid dt) (tail : List Char) :
    parseDatePart (strftimeDate dt ++ tail) =
      some ((dt.day, dt.month, dt.year), ' ' :: tail) := by
  obtain ⟨h1, h2, h3, h4, h5, h6, _⟩ := hv
  have hday : dt.day ≤ 31 := le_trans h6 (daysInMonth_le_31 _ _)
  have e1 := digitChar_isDigit (show dt.day / 10 ≤ 9 by omega)
  have e2 := digitChar_isDigit (show dt.day % 10 ≤ 9 by omega)
  have e3 := digitChar_isDigit (show dt.month / 10 ≤ 9 by omega)
  have e4 := digitChar_isDigit (show dt.month % 10 ≤ 9 by omega)
  have e5 := digitChar_isDigit (show dt.year / 1000 ≤ 9 by omega)
  have e6 := digitChar_isDigit (show dt.year / 100 % 10 ≤ 9 by omega)
  have e7 := digitChar_isDigit (show dt.year / 10 % 10 ≤ 9 by omega)
  have e8 := digitChar_isDigit (show dt.year % 10 ≤ 9 by omega)
  have f1 : ¬ (dt.day < 1 ∨ 31 < dt.day) := by omega
  have f2 : ¬ (dt.month < 1 ∨ 12 < dt.month) := by omega
  simp only [strftimeDate, pad2, pad4, List.cons_append, List.nil_append,
    List.append_assoc]
  simp [parseDatePart, takeDigits_cons_two e1 e2, takeDigits_cons_two e3 e4,
    takeDigits_cons_four e5 e6 e7 e8, digitsToNat_two (show dt.day ≤ 99 by omega),
    digitsToNat_two (show dt.month ≤ 99 by omega), digitsToNat_four h2, f1, f2]
  all_goals omega

/-- strptime of the strftime-glued string, for a valid instant: it succeeds
exactly when the capture tail parses, and then pins the parsed time to the
instant date. -/
lemma strptimeDateTime_strftime (dt : DateTime) (hv : Valid dt) (cap : List Char) :
    strptimeDateTime (strftimeDate dt ++ cap) =
      (parseTimePart cap).map
        (fun p => ⟨dt.year, dt.month, dt.day, p.1, p.2, 0, 0⟩) := by
  rw [strptimeDateTime, parseDatePart_strftime dt hv cap]
  obtain ⟨h1, _, _, _, _, h6, _⟩ := hv
  have f : ¬ (dt.year < 1 ∨ daysInMonth dt.year dt.month < dt.day) := by omega
  cases hp : parseTimePart cap with
  | none => simp [hp]
  | some p =>
    obtain ⟨ph, pm⟩ := p
    simp [hp, f]
    omega

/-- The date matcher raises exactly when a recognized date clause carries an
invalid captured value: the outcome does not depend on the instant or on the
range checks. -/
lemma parseDate_err (dt : DateTime) (s : List Char) :
    isErr (ParseDate dt s) = dateClauseInvalid s := by
  unfold ParseDate dateClauseInvalid
  cases hd : dateSearch s with
  | none => rfl
  | some p =>
    obtain ⟨g1, g2o⟩ := p
    cases g2o with
    | none => cases hg : strptimeDate g1 <;> simp [isErr, hg]
    | some g2 =>
      cases hg2 : strptimeDate g2 <;> cases hg1 : strptimeDate g1 <;>
        simp [isErr, hg1, hg2]

/-- The time matcher raises exactly when a recognized time clause carries an
invalid captured value, for a well-formed instant: the glued-on instant date
always reparses. -/
lemma parseTime_err (dt : DateTime) (s : List Char) (hv : Valid dt) :
    isErr (ParseTime dt s) = timeClauseInvalid s := by
  cases ht : timeSearch s with
  | none => simp [ParseTime, timeClauseInvalid, ht, isErr]
  | some p =>
    obtain ⟨g1, g2o⟩ := p
    cases g2o with
    | none =>
      simp only [ParseTime, timeClauseInvalid, ht]
      rw [strptimeDateTime_strftime dt hv g1]
      cases hp : parseTimePart g1 <;> simp [isErr, hp]
    | some g2 =>
      simp only [ParseTime, timeClauseInvalid, ht]
      rw [strptimeDateTime_strftime dt hv g1, strptimeDateTime_strftime dt hv g2]
      cases hp1 : parseTimePart g1 <;> cases hp2 : parseTimePart g2 <;>
        simp [isErr, hp1, hp2]

/-- C1: IsAvailable is the left-to-right short-circuit AND of the three
matchers: a false period match yields the value false with no ParseError no
matter what the date and time clauses hold; a false date match likewise
suppresses the time matcher; and when the later matchers do succeed the
result is the conjunction of the three matcher values. -/
theorem isAvailable_short_circuit_and (dt : DateTime) (s : List Char) :
    (ParsePeriod dt s = false → IsAvailable dt s = .ok false) ∧
    (ParsePeriod dt s = true → ParseDate dt s = .ok false →
      IsAvailable dt s = .ok false) ∧
    (∀ d t, ParsePeriod dt s = true → ParseDate dt s = .ok d →
      ParseTime dt s = .ok t →
      IsAvailable dt s = .ok (ParsePeriod dt s && d && t)) := by
  refine ⟨fun hp => ?_, fun hp hd => ?_, fun d t hp hd ht => ?_⟩
  · simp [IsAvailable, hp]
  · simp [IsAvailable, hp, hd]
  · cases d <;> simp [IsAvailable, hp, hd, ht]

/-- C1 witness: on the Friday test instant, a rule whose period clause is
false and whose date clause carries the invalid day 32 returns false without
raising. -/
theorem isAvailable_short_circuit_and_w :
    IsAvailable fri2014 "every weekend date: 32/1/2014".toList = .ok false :=
  (isAvailable_short_circuit_and fri2014 _).1 (by decide)

/-- C7: a rule string in which none of the three clause patterns occurs
constrains nothing: IsAvailable returns true for every instant. -/
theorem no_clause_available (dt : DateTime) (s : List Char)
    (h1 : periodSearch s = none) (h2 : dateSearch s = none)
    (h3 : timeSearch s = none) : IsAvailable dt s = .ok true := by
  simp [IsAvailable, ParsePeriod, ParseDate, ParseTime, h1, h2, h3]

/-- C7 witness: a clause-free string evaluates to true on the test
instant. -/
theorem no_clause_available_w :
    IsAvailable fri2014 "hello world".toList = .ok true :=
  no_clause_available fri2014 _ (by decide) (by decide) (by decide)

/-- C9: a false end-date check does not suppress parsing of the start date:
with a recognized date clause whose end date parses but lies before the
instant date and whose start date is semantically invalid, the date matcher
still raises the ParseError instead of returning false. -/
theorem date_parse_after_failed_check (dt : DateTime) (s g1 g2 : List Char)
    (ed : DateTime)
    (hs : dateSearch s = some (g1, some g2))
    (hed : strptimeDate g2 = some ed)
    (_hchk : dateLe dt ed = false)
    (hg1 : strptimeDate g1 = none) :
    ParseDate dt s = .error dateMsg := by
  simp [ParseDate, hs, hed, hg1]

/-- C9 witness: end date 2000-01-01 lies before the 2014 instant, the start
capture has day 32, and the matcher raises. -/
theorem date_parse_after_failed_check_w :
    ParseDate fri2014 "date: 32/1/2000-1/1/2000".toList = .error dateMsg :=
  date_parse_after_failed_check fri2014 _ "32/1/2000".toList "1/1/2000".toList
    ⟨2000, 1, 1, 0, 0, 0, 0⟩ (by decide) (by decide) (by decide) (by decide)

/-- C5: the period tokens day, weekend and weekday: day always matches,
weekend matches exactly on Saturday and Sunday (weekday numbers 5 and 6),
and weekday is the exact complement of weekend. -/
theorem period_token_semantics (dt : DateTime) (s : List Char) :
    (periodSearch s = some "day".toList → ParsePeriod dt s = true) ∧
    (periodSearch s = some "weekend".toList →
      (ParsePeriod dt s = true ↔ weekday dt = 5 ∨ weekday dt = 6)) ∧
    (periodSearch s = some "weekday".toList →
      (ParsePeriod dt s = true ↔ ¬ (weekday dt = 5 ∨ weekday dt = 6))) := by
  have hd : lowerList "day".toList = "day".toList := by decide
  have he : lowerList "weekend".toList = "weekend".toList := by decide
  have hw : lowerList "weekday".toList = "weekday".toList := by decide
  refine ⟨fun h => ?_, fun h => ?_, fun h => ?_⟩
  · simp [ParsePeriod, h, hd]
    exact Or.inl (by decide)
  · simp only [ParsePeriod, h, he]
    simp [weekendDays]
  · simp only [ParsePeriod, h, hw]
    simp [weekendDays]

/-- C5 witness: the Friday test instant against the weekend token: the
matcher returns false since Friday is weekday number 4. -/
theorem period_token_semantics_w :
    ParsePeriod fri2014 "every weekend".toList = true ↔
      weekday fri2014 = 5 ∨ weekday fri2014 = 6 :=
  (period_token_semantics fri2014 _).2.1 (by decide)

/-- C3: semantics of a recognized date clause with valid dates.  With start
and end, the matcher is true exactly when the start date at midnight is at
most the instant at full precision and the instant calendar date is at most
the end calendar date; with only a start date, exactly when the instant
calendar date equals the start date. -/
theorem date_range_semantics (dt : DateTime) (s g1 : List Char) (sd : DateTime) :
    (∀ g2 ed, dateSearch s = some (g1, some g2) → strptimeDate g1 = some sd →
        strptimeDate g2 = some ed →
        (ParseDate dt s = .ok true ↔
          dtLe sd dt = true ∧ dateLe dt ed = true)) ∧
    (dateSearch s = some (g1, none) → strptimeDate g1 = some sd →
        (ParseDate dt s = .ok true ↔ dateTriple dt = dateTriple sd)) := by
  constructor
  · intro g2 ed hs hp1 hp2
    simp only [ParseDate, hs, hp1, hp2]
    simp only [Except.ok.injEq, Bool.and_eq_true]
    tauto
  · intro hs hp1
    simp only [ParseDate, hs, hp1]
    simp only [Except.ok.injEq, Bool.and_eq_true, decide_eq_true_eq]
    constructor
    · rintro ⟨-, h⟩
      exact h.symm
    · intro h
      obtain ⟨hh, hm, hsec, hu⟩ := strptimeDate_fields hp1
      exact ⟨dtLe_midnight hh hm hsec hu h.symm, h.symm⟩

/-- C3 witness: the test clause with range 2014-01-01 to 2014-01-15 around
the Friday instant. -/
theorem date_range_semantics_w :
    ParseDate fri2014 "date: 1/1/2014-15/1/2014".toList = .ok true ↔
      dtLe ⟨2014, 1, 1, 0, 0, 0, 0⟩ fri2014 = true ∧
        dateLe fri2014 ⟨2014, 1, 15, 0, 0, 0, 0⟩ = true :=
  (date_range_semantics fri2014 _ "1/1/2014".toList ⟨2014, 1, 1, 0, 0, 0, 0⟩).1
    "15/1/2014".toList ⟨2014, 1, 15, 0, 0, 0, 0⟩ (by decide) (by decide)
    (by decide)

/-- C4: semantics of a recognized time clause with valid times, both pinned
to the instant calendar date by the strftime gluing.  With start and end,
the matcher is true exactly when start is at most the instant and the
instant at most the end, at full precision; with only a start, exactly when
the instant equals the pinned start timestamp, that is, when its time of day
is exactly the start time. -/
theorem time_range_semantics (dt : DateTime) (s g1 : List Char) (st : DateTime) :
    (∀ g2 et, timeSearch s = some (g1, some g2) →
        strptimeDateTime (strftimeDate dt ++ g1) = some st →
        strptimeDateTime (strftimeDate dt ++ g2) = some et →
        (ParseTime dt s = .ok true ↔
          dtLe st dt = true ∧ dtLe dt et = true)) ∧
    (timeSearch s = some (g1, none) →
        strptimeDateTime (strftimeDate dt ++ g1) = some st →
        (ParseTime dt s = .ok true ↔ dt = st)) := by
  constructor
  · intro g2 et hs h1 h2
    simp only [ParseTime, hs, h1, h2]
    simp only [Except.ok.injEq, Bool.and_eq_true]
    tauto
  · intro hs h1
    simp only [ParseTime, hs, h1]
    simp only [Except.ok.injEq, Bool.and_eq_true, decide_eq_true_eq]
    constructor
    · rintro ⟨h, -⟩
      exact h.symm
    · rintro rfl
      exact ⟨rfl, dtLe_refl _⟩

/-- C4 witness: the test clause 8:00 AM to 5:00 PM around the Friday 15:00
instant. -/
theorem time_range_semantics_w :
    ParseTime fri2014 "time: 8:00 AM-5:00 PM".toList = .ok true ↔
      dtLe ⟨2014, 1, 10, 8, 0, 0, 0⟩ fri2014 = true ∧
        dtLe fri2014 ⟨2014, 1, 10, 17, 0, 0, 0⟩ = true :=
  (time_range_semantics fri2014 _ "8:00 AM".toList
      ⟨2014, 1, 10, 8, 0, 0, 0⟩).1 "5:00 PM".toList
    ⟨2014, 1, 10, 17, 0, 0, 0⟩ (by decide) (by decide) (by decide)

/-- C8: the period matcher never raises: a captured token that is not one of
the ten recognized words falls through to the abbreviation comparison and
yields false, and with no other clause present IsAvailable then returns the
value false rather than an error. -/
theorem period_unrecognized_token (dt : DateTime) (s g : List Char)
    (hs : periodSearch s = some g)
    (hg : lowerList g ∉ recognizedTokens) :
    ParsePeriod dt s = false ∧
    (dateSearch s = none → timeSearch s = none →
      IsAvailable dt s = .ok false) := by
  have h1 : lowerList g ≠ "day".toList := fun he => hg (by rw [he]; decide)
  have h2 : lowerList g ≠ "weekend".toList := fun he => hg (by rw [he]; decide)
  have h3 : lowerList g ≠ "weekday".toList := fun he => hg (by rw [he]; decide)
  have hfalse : ParsePeriod dt s = false := by
    simp only [ParsePeriod, hs]
    rw [if_neg h1, if_neg h2, if_neg h3]
    simp only [decide_eq_false_iff_not]
    intro he
    apply hg
    rw [← he]
    generalize hw : weekday dt = w
    have h7 : w < 7 := by rw [← hw]; exact Nat.mod_lt _ (by norm_num)
    interval_cases w <;> decide
  refine ⟨hfalse, fun hd ht => ?_⟩
  simp [IsAvailable, hfalse]

/-- C8 witness: the token monday matches the scanning class but is not
recognized; the matcher returns false and IsAvailable returns the value
false, not an error. -/
theorem period_unrecognized_token_w :
    ParsePeriod fri2014 "every monday".toList = false ∧
    (dateSearch "every monday".toList = none →
      timeSearch "every monday".toList = none →
      IsAvailable fri2014 "every monday".toList = .ok false) :=
  period_unrecognized_token fri2014 _ "monday".toList (by decide) (by decide)

/-- C2 counterexample: the claim says a date clause with captured values
failing validation always raises, but when the period matcher is false the
raise is short-circuited away: this string holds an invalid date clause (day
99) yet IsAvailable returns the value false with no error. -/
theorem raise_iff_cex :
    dateClauseInvalid "every weekend date: 99/9/2014".toList = true ∧
    isErr (IsAvailable fri2014 "every weekend date: 99/9/2014".toList) =
      false := by
  decide

/-- C2 amended: for a well-formed instant, IsAvailable raises exactly when
the period matcher is true and either the date clause carries captured
values failing validation, or the date matcher returns the value true and
the time clause carries captured values failing validation.  Absence of a clause, or
text the clause regex does not accept, never raises. -/
theorem raise_characterization (dt : DateTime) (s : List Char) (hv : Valid dt) :
    isErr (IsAvailable dt s) =
      (ParsePeriod dt s &&
        (dateClauseInvalid s ||
          (isOkTrue (ParseDate dt s) && timeClauseInvalid s))) := by
  rw [← parseDate_err dt s, ← parseTime_err dt s hv]
  cases hp : ParsePeriod dt s with
  | false => simp [IsAvailable, hp, isErr]
  | true =>
    simp only [IsAvailable, hp, if_true]
    cases hd : ParseDate dt s with
    | error e => simp [isErr, isOkTrue, hd]
    | ok b => cases b <;> simp [isErr, isOkTrue, hd]

/-- C2 witness: the characterization applied to the raising test string with
the invalid hour 15. -/
theorem raise_characterization_w :
    isErr (IsAvailable fri2014 "every day time: 8:00 AM-15:00 PM".toList) =
      (ParsePeriod fri2014 "every day time: 8:00 AM-15:00 PM".toList &&
        (dateClauseInvalid "every day time: 8:00 AM-15:00 PM".toList ||
          (isOkTrue
              (ParseDate fri2014 "every day time: 8:00 AM-15:00 PM".toList) &&
            timeClauseInvalid "every day time: 8:00 AM-15:00 PM".toList))) :=
  raise_characterization fri2014 _ (by decide)

/-- C6 counterexample: on a Monday instant the rule every FRI makes the
period dimension true, because the scanning character class holds only
lowercase letters, so the clause is treated as absent; yet the Monday
abbreviation does not equal FRI case-insensitively, refuting the claimed
equivalence for uppercase abbreviations. -/
theorem weekday_abbrev_case_cex :
    ¬ (ParsePeriod monday2014 "every FRI".toList = true ↔
        lowerList (dayAbbrev (weekday monday2014)) =
          lowerList "FRI".toList) := by
  decide

/-- C6 amended: for lowercase three-letter weekday abbreviations, which are
the ones the scanning class can capture, the rule every abbrev makes the
period matcher true exactly when the instant weekday abbreviation equals the
token case-insensitively; uppercase spellings are not captured by the
scanner at all. -/
theorem weekday_abbrev_semantics (dt : DateTime) (a : List Char)
    (ha : a ∈ ["mon".toList, "tue".toList, "wed".toList, "thu".toList,
        "fri".toList, "sat".toList, "sun".toList]) :
    ParsePeriod dt ("every ".toList ++ a) =
      decide (lowerList (dayAbbrev (weekday dt)) = lowerList a) := by
  have key : ∀ b : List Char, periodSearch ("every ".toList ++ b) = some b →
      lowerList b ≠ "day".toList → lowerList b ≠ "weekend".toList →
      lowerList b ≠ "weekday".toList →
      ParsePeriod dt ("every ".toList ++ b) =
        decide (lowerList (dayAbbrev (weekday dt)) = lowerList b) := by
    intro b hsb n1 n2 n3
    simp only [ParsePeriod, hsb]
    rw [if_neg n1, if_neg n2, if_neg n3]
  fin_cases ha <;> exact key _ (by decide) (by decide) (by decide) (by decide)

/-- C6 witness: the amended statement applied to the Friday instant and the
token fri. -/
theorem weekday_abbrev_semantics_w :
    ParsePeriod fri2014 ("every ".toList ++ "fri".toList) =
      decide (lowerList (dayAbbrev (weekday fri2014)) =
        lowerList "fri".toList) :=
  weekday_abbrev_semantics fri2014 "fri".toList (by decide)

/-- C10: the meridiem position of the time regex is a character class
holding A, the bar and P, so a clause writing a bar in place of the meridiem
letter is accepted by the scanner; strptime then rejects the captured group,
so the matcher raises instead of treating the clause as absent. -/
theorem time_pipe_meridiem (dt : DateTime) (hv : Valid dt) :
    timeSearch "time: 8:00 |M".toList = some ("8:00 |M".toList, none) ∧
    ParseTime dt "time: 8:00 |M".toList = .error timeMsg := by
  have hs : timeSearch "time: 8:00 |M".toList =
      some ("8:00 |M".toList, none) := by decide
  refine ⟨hs, ?_⟩
  simp only [ParseTime, hs]
  rw [strptimeDateTime_strftime dt hv]
  have hnone : parseTimePart ['8', ':', '0', '0', ' ', '|', 'M'] = none := by
    decide
  simp [hnone]

/-- C10 witness: the bar-meridiem clause on the Friday test instant. -/
theorem time_pipe_meridiem_w :
    timeSearch "time: 8:00 |M".toList = some ("8:00 |M".toList, none) ∧
    ParseTime fri2014 "time: 8:00 |M".toList = .error timeMsg :=
  time_pipe_meridiem fri2014 (by decide)

end TimeParser
